import Mathlib

/-!
Verification of the state-management core of the panoramix (Superset) frontend:
the `Registry` class (src/superset/assets/src/modules/Registry.js), the dashboard
reducer and `getInitialState` (src/superset/assets/javascripts/dashboard/reducers.js),
and the composite-store pattern (`combineReducers`).

JavaScript values are modelled by the inductive `JVal`; JS objects are association
lists preserving insertion order, as `Object.assign`-style shallow copy/override
does.  Machine details that no claim depends on (NaN, prototype chains, property
enumeration on primitives) are noted where they are approximated.
-/

/-- Model of a JavaScript value as stored in the dashboard filter state:
`null`, `undefined`, booleans, numbers (integers suffice for every value the
code manipulates), strings, arrays, and plain objects (ordered key/value lists). -/
inductive JVal where
  | null
  | undef
  | bool (b : Bool)
  | num (n : Int)
  | str (s : String)
  | arr (xs : List JVal)
  | obj (fields : List (String × JVal))

/-- JS truthiness: `null`, `undefined`, `false`, `0`, and `''` are falsy;
every array or object is truthy.  (NaN is not modelled.) -/
def truthy : JVal → Bool
  | .null => false
  | .undef => false
  | .bool b => b
  | .num n => !(n == 0)
  | .str s => !(s == "")
  | .arr _ => true
  | .obj _ => true

/-- JS `a || b`: returns `a` when truthy, else `b`. -/
def jsOr (a b : JVal) : JVal :=
  if truthy a then a else b

/-- JS strict equality `===` as used by `Array.prototype.indexOf`: value
equality on primitives; two arrays/objects compare by reference, so two
separately constructed ones are unequal (the reducer only compares primitive
filter values, so the blanket `false` for composite values is faithful there). -/
def jsStrictEq : JVal → JVal → Bool
  | .null, .null => true
  | .undef, .undef => true
  | .bool a, .bool b => a == b
  | .num a, .num b => a == b
  | .str a, .str b => a == b
  | _, _ => false

/-- Association-list lookup: the value stored under key `k`, or `none` when the
key is absent (JS property access yielding `undefined`). -/
def alook {α β : Type} [DecidableEq α] : List (α × β) → α → Option β
  | [], _ => none
  | p :: rest, k => if p.1 = k then some p.2 else alook rest k

/-- Association-list update: overwrite the first entry with key `k` in place
(JS objects keep a property's original insertion position on overwrite), or
append a new entry when the key is absent. -/
def aset {α β : Type} [DecidableEq α] : List (α × β) → α → β → List (α × β)
  | [], k, v => [(k, v)]
  | p :: rest, k, v => if p.1 = k then (k, v) :: rest else p :: aset rest k v

/-- Association-list delete (JS `delete obj[k]`): drop the entries keyed `k`. -/
def aerase {α β : Type} [DecidableEq α] : List (α × β) → α → List (α × β)
  | [], _ => []
  | p :: rest, k => if p.1 = k then aerase rest k else p :: aerase rest k

/-- `d3.merge`: flattens one level, concatenating the member arrays. -/
def d3merge (xss : List (List JVal)) : List JVal :=
  xss.flatten

/-- JS `k in x` for the shapes the reducer reaches: key presence on an object.
On arrays it would test numeric indices (false for the column names used here)
and on primitives the operator throws; the theorems below only apply it to
objects, where this model is exact. -/
def jsHasKey : JVal → String → Bool
  | .obj fields, k => (alook fields k).isSome
  | _, _ => false

/-- JS `x[k]` member read for the shapes the reducer reaches: field of an
object, `undefined` when absent. -/
def jsGetKey : JVal → String → JVal
  | .obj fields, k => (alook fields k).getD JVal.undef
  | _, _ => JVal.undef

/-- JS `Object.assign({}, x, {[k]: v})` for the shapes the reducer reaches:
copy the object and overwrite field `k`.  (On a non-object `x`, JS would spread
its enumerable own properties; the handlers below only reach this with an
object or a fresh `{}`.) -/
def jsSetKey : JVal → String → JVal → JVal
  | .obj fields, k, v => JVal.obj (aset fields k v)
  | _, k, v => JVal.obj [(k, v)]

/-- Elements of a JS array value; `[]` on non-arrays (where JS iteration such
as `forEach` would throw; the theorems below pin the array case). -/
def jsArrElems : JVal → List JVal
  | .arr xs => xs
  | _ => []

/-- Whether a value is an array (`x instanceof Array`). -/
def isArrJ : JVal → Bool
  | .arr _ => true
  | _ => false

/-- Whether a value is exactly `null`. -/
def isNullJ : JVal → Bool
  | .null => true
  | _ => false

/-- Whether a value is exactly `undefined`. -/
def isUndefJ : JVal → Bool
  | .undef => true
  | _ => false

/-- Outcome of a JS promise as observed by the Registry's callers: resolved
with a value, or rejected with a message. -/
inductive JProm where
  | resolved (v : JVal)
  | rejected (msg : String)

/-- The `Registry` class of src/superset/assets/src/modules/Registry.js:
`items` maps keys to registered values, `promises` memoizes one promise per
key.  Both start empty. -/
structure Registry where
  name : String
  items : List (String × JVal)
  promises : List (String × JProm)

/-- `new Registry(name)`: empty registry. -/
def Registry.new (name : String) : Registry :=
  { name := name, items := [], promises := [] }

/-- `has(key)`: `items[key] !== null && items[key] !== undefined` (a missing
key reads as `undefined`). -/
def Registry.has (r : Registry) (key : String) : Bool :=
  let item := (alook r.items key).getD JVal.undef
  !(isNullJ item) && !(isUndefJ item)

/-- `register(key, value)`: store the value and delete any memoized promise
for the key.  (The JS method returns `this`; here the updated registry.) -/
def Registry.register (r : Registry) (key : String) (value : JVal) : Registry :=
  { r with items := aset r.items key value, promises := aerase r.promises key }

/-- `get(key)`: the stored value if truthy, else `null`. -/
def Registry.get (r : Registry) (key : String) : JVal :=
  let item := (alook r.items key).getD JVal.undef
  if truthy item then item else JVal.null

/-- `getAsPromise(key)`: return the memoized promise when one exists; else a
fresh resolved promise (memoized) when `get` yields a truthy item; else a
rejected promise naming the key.  The JS method mutates `this.promises`; here
the promise is returned together with the updated registry. -/
def Registry.getAsPromise (r : Registry) (key : String) : JProm × Registry :=
  match alook r.promises key with
  | some promise => (promise, r)
  | none =>
    let item := r.get key
    if truthy item then
      let newPromise := JProm.resolved item
      (newPromise, { r with promises := aset r.promises key newPromise })
    else
      (JProm.rejected ("Item with key \"" ++ key ++ "\" is not registered."), r)

/-- Effective chart configuration; only the `groupby` column list is read by
the dashboard reducer. -/
structure FormData where
  groupby : List String
deriving DecidableEq

/-- A dashboard slice (widget) as stored in `state.dashboard.slices`.
`form_data` is the raw configuration from the bootstrap payload and `formData`
the default-filled one attached by `getInitialState`. -/
structure Slice where
  slice_id : Nat
  slice_name : String
  form_data : FormData
  formData : FormData
deriving DecidableEq

/-- A grid position (`col`/`row`/`size_x`/`size_y`), either taken from
`position_json` or computed as a default by `getInitialState`. -/
structure Pos where
  col : Int
  row : Int
  size_x : Int
  size_y : Int
deriving DecidableEq

/-- An entry of the bootstrap payload's `position_json` array. -/
structure PosEntry where
  slice_id : Nat
  col : Int
  row : Int
  size_x : Int
  size_y : Int
deriving DecidableEq

/-- A react-grid-layout entry produced by `getInitialState`
(`{i, x, y, w, minW, h}`). -/
structure LayoutEntry where
  i : String
  x : Int
  y : Int
  w : Int
  minW : Int
  h : Int
deriving DecidableEq

/-- Dashboard metadata; `default_filters` is an optional JSON string and
`expanded_slices` a map from slice id to expansion flag. -/
structure Metadata where
  default_filters : Option String
  expanded_slices : List (Nat × Bool)
deriving DecidableEq

/-- The `dashboard` object inside the dashboard state slice.  `posDict` and
`layout` are attached by `getInitialState` (empty in the raw payload). -/
structure DashboardData where
  dashboard_title : String
  slices : List Slice
  position_json : Option (List PosEntry)
  metadata : Metadata
  posDict : List (Nat × Pos)
  layout : List LayoutEntry

/-- The dashboard state slice.  `filters` maps a slice id to its filter value
(normally an object from column name to selected values).  `filter`,
`refresh`, and `isStarred` are absent (`none`) in the initial state and only
attached by the handlers that assign them. -/
structure DashState where
  dashboard : DashboardData
  filters : List (Nat × JVal)
  userId : Nat
  filter : Option (List (Nat × JVal))
  refresh : Option Bool
  isStarred : Option Bool

/-- Dashboard actions (javascripts/dashboard/actions.js, dispatched to the
reducer).  `unknown` stands for any action object whose `type` string is not
one of the nine recognized discriminants. -/
inductive DashAction where
  | updateDashboardTitle (title : String)
  | updateDashboardLayout (layout : List LayoutEntry)
  | removeSlice (slice : Slice)
  | toggleFaveStar (isStarred : Bool)
  | toggleExpandSlice (slice : Slice) (isExpanded : Bool)
  | addFilter (sliceId : Nat) (col : String) (vals : List JVal) (merge : Bool) (refresh : Bool)
  | clearFilter (sliceId : Nat)
  | removeFilter (sliceId : Nat) (col : String) (vals : List JVal)
  | updateSliceName (slice : Slice) (sliceName : String)
  | unknown (t : String)

/-- Modelled from the spec: the action `type` string constants come from
javascripts/dashboard/actions.js, which is not part of the sources here; the
spec lists the recognized discriminants (title update, layout update, slice
removal, fave-star toggle, expand toggle, add/clear/remove filter, slice-name
update) and this maps each action to its conventional constant. -/
def actionTypeStr : DashAction → String
  | .updateDashboardTitle _ => "UPDATE_DASHBOARD_TITLE"
  | .updateDashboardLayout _ => "UPDATE_DASHBOARD_LAYOUT"
  | .removeSlice _ => "REMOVE_SLICE"
  | .toggleFaveStar _ => "TOGGLE_FAVE_STAR"
  | .toggleExpandSlice _ _ => "TOGGLE_EXPAND_SLICE"
  | .addFilter _ _ _ _ _ => "ADD_FILTER"
  | .clearFilter _ => "CLEAR_FILTER"
  | .removeFilter _ _ _ => "REMOVE_FILTER"
  | .updateSliceName _ _ => "UPDATE_SLICE_NAME"
  | .unknown t => t

/-- The keys of the reducer's `actionHandlers` table: exactly the discriminants
with a handler. -/
def handledActionTypes : List String :=
  ["UPDATE_DASHBOARD_TITLE", "UPDATE_DASHBOARD_LAYOUT", "REMOVE_SLICE",
   "TOGGLE_FAVE_STAR", "TOGGLE_EXPAND_SLICE", "ADD_FILTER", "CLEAR_FILTER",
   "REMOVE_FILTER", "UPDATE_SLICE_NAME"]

/-- The fixed temporal filter keys accepted by the ADD_FILTER handler. -/
def filterKeys : List String :=
  ["__from", "__to", "__time_col", "__time_grain", "__time_origin", "__granularity"]

/-- The `dashboard` reducer of javascripts/dashboard/reducers.js (lines
80-188), transliterated handler by handler.  Notes on the JS originals:
`REMOVE_SLICE` uses `removeFromArr` (reduxUtils.js, not among the sources;
modelled from the spec's "entity removal" as filtering by `slice_id`), and
`UPDATE_SLICE_NAME` uses `alterInArr` (same module; modelled from the spec's
"name update" as an in-place field override by `slice_id`).  In
`REMOVE_FILTER`, `newFilters` is a shallow copy of `state.filters`, so the
assignment `newFilters[sliceId][col] = a` mutates the inner object shared with
`state.filters`; the value semantics below therefore shows the update in both
the `filters` and `filter` fields of the returned state (a reference-level
model of the same two handlers appears further down for the frame claim). -/
def dashboard (state : DashState) (action : DashAction) : DashState :=
  match action with
  | .updateDashboardTitle title =>
    { state with dashboard := { state.dashboard with dashboard_title := title } }
  | .updateDashboardLayout layout =>
    { state with dashboard := { state.dashboard with layout := layout } }
  | .removeSlice slice =>
    let newLayout := state.dashboard.layout.filter
      (fun reactPos => !(reactPos.i == toString slice.slice_id))
    let newSlices := state.dashboard.slices.filter
      (fun sl => !(sl.slice_id == slice.slice_id))
    { state with dashboard := { state.dashboard with slices := newSlices, layout := newLayout } }
  | .toggleFaveStar isStarred =>
    { state with isStarred := some isStarred }
  | .toggleExpandSlice slice isExpanded =>
    let updatedExpandedSlices :=
      if isExpanded then aset state.dashboard.metadata.expanded_slices slice.slice_id true
      else aerase state.dashboard.metadata.expanded_slices slice.slice_id
    { state with dashboard :=
        { state.dashboard with metadata :=
            { state.dashboard.metadata with expanded_slices := updatedExpandedSlices } } }
  | .addFilter sliceId col vals merge refresh =>
    match state.dashboard.slices.find? (fun sl => sl.slice_id == sliceId) with
    | none => state
    | some selectedSlice =>
      if filterKeys.contains col || selectedSlice.formData.groupby.contains col then
        let filters1 :=
          if (alook state.filters sliceId).isNone
          then aset state.filters sliceId (JVal.obj [])
          else state.filters
        let cur := (alook filters1 sliceId).getD JVal.undef
        let newFilter :=
          if (truthy cur && !(jsHasKey cur col)) || !merge then
            jsSetKey cur col (JVal.arr vals)
          else if isArrJ (jsGetKey cur col) then
            JVal.arr (d3merge [jsArrElems (jsGetKey cur col), vals])
          else
            jsOr ((d3merge [[jsGetKey cur col], vals]).headD JVal.undef) (JVal.str "")
        { state with filters := aset filters1 sliceId newFilter, refresh := some refresh }
      else
        { state with refresh := some refresh }
  | .clearFilter sliceId =>
    { state with filter := some (aerase state.filters sliceId), refresh := some true }
  | .removeFilter sliceId col vals =>
    let newFilters :=
      match alook state.filters sliceId with
      | none => state.filters
      | some inner =>
        if jsHasKey inner col then
          let a := (jsArrElems (jsGetKey inner col)).filter
            (fun v => !(vals.any (fun w => jsStrictEq w v)))
          aset state.filters sliceId (jsSetKey inner col (JVal.arr a))
        else state.filters
    { state with filters := newFilters, filter := some newFilters, refresh := some true }
  | .updateSliceName slice sliceName =>
    let newSlices := state.dashboard.slices.map
      (fun sl => if sl.slice_id == slice.slice_id then { sl with slice_name := sliceName } else sl)
    { state with dashboard := { state.dashboard with slices := newSlices } }
  | .unknown _ => state

/-- Truthiness of an optional JS string (the result of `getParam`, or a
metadata field): absent or empty is falsy. -/
def jsTruthyStr : Option String → Bool
  | none => false
  | some s => !(s == "")

/-- Lines 16-26 of reducers.js: `JSON.parse(getParam('preselect_filters') ||
dashboard.metadata.default_filters)` inside try/catch, then a loop copying the
parsed entries keyed by `parseInt(key, 10)`.  `preselect` is the value of the
request parameter (`getParam` lives in modules/utils.js, outside the sources
here) and `parse` stands for `JSON.parse` composed with that key-numbering
loop, returning `none` when parsing throws; dashboard filter data keys are
numeric strings.  The `||` chooses the metadata default only when the request
parameter is falsy (absent or empty); a failed parse of either operand is
caught and leaves the filters empty. -/
def initialFiltersOf (parse : String → Option (List (Nat × JVal)))
    (preselect : Option String) (defaultFilters : Option String) : List (Nat × JVal) :=
  match (if jsTruthyStr preselect then preselect else defaultFilters) with
  | none => []
  | some s =>
    match parse s with
    | none => []
    | some filterData => filterData

/-- The default grid position for the entity at (zero-based) `index` when
`position_json` has no entry for it (reducers.js lines 38-44). -/
def defaultPos (index : Nat) : Pos :=
  { col := ((index : Int) * 4 + 1) % 12
    row := ((index : Int) / 3) * 4
    size_x := 4
    size_y := 4 }

/-- `posDict` built from `position_json` (reducers.js lines 30-33): later
entries for the same `slice_id` overwrite earlier ones. -/
def posDictOf (position_json : Option (List PosEntry)) : List (Nat × Pos) :=
  match position_json with
  | none => []
  | some entries =>
    entries.foldl
      (fun acc p => aset acc p.slice_id { col := p.col, row := p.row, size_x := p.size_x, size_y := p.size_y })
      []

/-- The layout list built by `getInitialState` (reducers.js lines 34-54): for
the slice at index `i`, use its `posDict` entry or the default position, and
emit `{i: String(sliceId), x: col - 1, y: row, w: size_x, minW: 2, h: size_y}`. -/
def layoutOf (slices : List Slice) (posDict : List (Nat × Pos)) : List LayoutEntry :=
  slices.enum.map (fun pr =>
    let pos := (alook posDict pr.2.slice_id).getD (defaultPos pr.1)
    { i := toString pr.2.slice_id, x := pos.col - 1, y := pos.row,
      w := pos.size_x, minW := 2, h := pos.size_y })

/-- The bootstrap payload fields read by the dashboard part of
`getInitialState` (`datasources` and `common` carry no claim-relevant data and
are not modelled). -/
structure BootstrapData where
  user_id : Nat
  dashboard_data : DashboardData

/-- `getInitialState` (reducers.js lines 10-78), restricted to the dashboard
state slice it returns: parsed filters, `posDict`, layout, and slices with
their default-filled `formData` attached.  `applyFD` stands for
`applyDefaultFormData` (explore/stores/store.js, outside the sources here) and
`parse`/`preselect` are as in `initialFiltersOf`.  The `charts` half of the
return value is seeded from the chart reducer's defaults (chartReducer.js,
outside the sources) and is not modelled. -/
def getInitialState (parse : String → Option (List (Nat × JVal)))
    (applyFD : FormData → FormData) (preselect : Option String)
    (bootstrapData : BootstrapData) : DashState :=
  let dashboard0 := bootstrapData.dashboard_data
  let filters := initialFiltersOf parse preselect dashboard0.metadata.default_filters
  let posDict := posDictOf dashboard0.position_json
  let layout := layoutOf dashboard0.slices posDict
  let newSlices := dashboard0.slices.map (fun sl => { sl with formData := applyFD sl.form_data })
  { dashboard := { dashboard0 with posDict := posDict, layout := layout, slices := newSlices }
    filters := filters
    userId := bootstrapData.user_id
    filter := none
    refresh := none
    isStarred := none }

/-- The root state of the composite store: one named slice per sub-reducer. -/
structure RootState (C D : Type) where
  charts : C
  dashboard : D

/-- Modelled from the spec: redux's `combineReducers({charts, dashboard})`
(the redux library is not part of the sources here).  Per the spec's composite
store contract, each named slice is reduced independently and, when every
sub-reducer returns its input slice unchanged, the composite returns the input
root state itself (reference-equality short-circuit; sameness of an unchanged
slice is expressed here as equality of the returned value with the input). -/
def combineReducers {C D : Type} [DecidableEq C] [DecidableEq D]
    (chartsReducer : C → DashAction → C) (dashboardReducer : D → DashAction → D)
    (state : RootState C D) (action : DashAction) : RootState C D :=
  let nextCharts := chartsReducer state.charts action
  let nextDashboard := dashboardReducer state.dashboard action
  if nextCharts = state.charts ∧ nextDashboard = state.dashboard then state
  else { charts := nextCharts, dashboard := nextDashboard }

/-- Heap for the reference-level model of the CLEAR_FILTER / REMOVE_FILTER
handlers: `tops` maps a reference to a filters object (slice id to inner-object
reference), `inners` maps a reference to a per-slice column map, and `next` is
the next fresh reference.  This captures the JS aliasing: `Object.assign({},
state.filters)` allocates a new top object whose entries still point to the
same inner objects. -/
structure FHeap where
  tops : Nat → List (Nat × Nat)
  inners : Nat → List (String × JVal)
  next : Nat

/-- The fields of the dashboard state touched by the two filter-removal
handlers, at the reference level: `filters` holds a reference to a top filters
object, `filter` and `refresh` are absent until a handler assigns them. -/
structure DashStateR where
  filtersRef : Nat
  filterRef : Option Nat
  refresh : Option Bool

/-- Pointwise update of a reference-indexed store. -/
def updFn {α : Type} (f : Nat → α) (r : Nat) (v : α) : Nat → α :=
  fun x => if x = r then v else f x

/-- Read a top filters object through the heap, dereferencing each slice's
inner object: the value a consumer of the state observes. -/
def derefTop (h : FHeap) (r : Nat) : List (Nat × List (String × JVal)) :=
  (h.tops r).map (fun e => (e.1, h.inners e.2))

/-- CLEAR_FILTER (reducers.js lines 150-155) at the reference level:
`Object.assign({}, state.filters)` then `delete newFilters[action.sliceId]`
allocates a fresh top object without the slice's entry; the new state carries
it under the (misspelled) `filter` field with `refresh: true`, leaving the
`filters` field bound to the original reference. -/
def clearFilterR (h : FHeap) (s : DashStateR) (sliceId : Nat) : FHeap × DashStateR :=
  let top := h.tops s.filtersRef
  let newTop := top.filter (fun e => !(e.1 == sliceId))
  ({ tops := updFn h.tops h.next newTop, inners := h.inners, next := h.next + 1 },
   { s with filterRef := some h.next, refresh := some true })

/-- REMOVE_FILTER (reducers.js lines 156-172) at the reference level: the
fresh top object copies the original's entries (sharing the inner references),
and when `sliceId in state.filters` and `col in state.filters[sliceId]` the
assignment `newFilters[sliceId][col] = a` mutates the shared inner object in
place (`a` keeps the elements not occurring in `action.vals`, per `indexOf`).
The new state carries the fresh reference under `filter` with `refresh: true`,
leaving the `filters` field bound to the original reference. -/
def removeFilterR (h : FHeap) (s : DashStateR) (sliceId : Nat) (col : String)
    (vals : List JVal) : FHeap × DashStateR :=
  let top := h.tops s.filtersRef
  let h1 : FHeap := { tops := updFn h.tops h.next top, inners := h.inners, next := h.next + 1 }
  let h2 : FHeap :=
    match alook top sliceId with
    | none => h1
    | some innerRef =>
      let inner := h1.inners innerRef
      if (alook inner col).isSome then
        let a := (jsArrElems ((alook inner col).getD JVal.undef)).filter
          (fun v => !(vals.any (fun w => jsStrictEq w v)))
        { h1 with inners := updFn h1.inners innerRef (aset inner col (JVal.arr a)) }
      else h1
  (h2, { s with filterRef := some h.next, refresh := some true })

/-- The value-level effect of REMOVE_FILTER on one slice's column map: drop
from the column's array every element occurring in `vals`. -/
def removeVals (inner : List (String × JVal)) (col : String) (vals : List JVal) :
    List (String × JVal) :=
  match alook inner col with
  | none => inner
  | some cur =>
    aset inner col
      (JVal.arr ((jsArrElems cur).filter (fun v => !(vals.any (fun w => jsStrictEq w v)))))

/-- The value-level effect of REMOVE_FILTER on the whole filters mapping. -/
def removeFilterVal (fs : List (Nat × List (String × JVal))) (sliceId : Nat)
    (col : String) (vals : List JVal) : List (Nat × List (String × JVal)) :=
  match alook fs sliceId with
  | none => fs
  | some inner => aset fs sliceId (removeVals inner col vals)

/-- A slice whose group-by columns are `["c"]`, used as concrete input. -/
def sampleSlice : Slice :=
  { slice_id := 10, slice_name := "slice ten",
    form_data := { groupby := ["c"] }, formData := { groupby := ["c"] } }

/-- Concrete dashboard data holding `sampleSlice`, with metadata default
filter string "ok". -/
def sampleDashData : DashboardData :=
  { dashboard_title := "dash", slices := [sampleSlice], position_json := none,
    metadata := { default_filters := some "ok", expanded_slices := [] },
    posDict := [], layout := [] }

/-- Concrete dashboard state over `sampleDashData` with the given filters. -/
def sampleState (filters : List (Nat × JVal)) : DashState :=
  { dashboard := sampleDashData, filters := filters, userId := 7,
    filter := none, refresh := none, isStarred := none }

/-- A concrete stand-in for `JSON.parse` (plus key numbering): only the string
"ok" parses, to filter data selecting value "a" in column "c" of slice 1. -/
def sampleParse : String → Option (List (Nat × JVal)) :=
  fun s => if s = "ok" then some [(1, JVal.obj [("c", JVal.arr [JVal.str "a"])])] else none

/-- A concrete stand-in for `applyDefaultFormData`: the identity transform. -/
def idFD : FormData → FormData := fun fd => fd

/-- Concrete bootstrap payload over `sampleDashData`. -/
def sampleBootstrap : BootstrapData :=
  { user_id := 7, dashboard_data := sampleDashData }

/-- A minimal slice with the given id, for layout examples. -/
def mkSlice (sid : Nat) : Slice :=
  { slice_id := sid, slice_name := "s",
    form_data := { groupby := [] }, formData := { groupby := [] } }

/-- Bootstrap payload with five slices and one explicit position (for slice
100); slices at other indices fall back to the default grid layout. -/
def posBootstrap : BootstrapData :=
  { user_id := 1
    dashboard_data :=
      { dashboard_title := "d"
        slices := [mkSlice 100, mkSlice 101, mkSlice 102, mkSlice 103, mkSlice 104]
        position_json := some [{ slice_id := 100, col := 7, row := 2, size_x := 6, size_y := 3 }]
        metadata := { default_filters := none, expanded_slices := [] }
        posDict := []
        layout := [] } }

/-- Concrete heap for the reference-level model: one top filters object (ref
0) whose slice 10 points to an inner object (ref 1) holding column "c". -/
def sampleHeap : FHeap :=
  { tops := fun r => if r = 0 then [(10, 1)] else []
    inners := fun r => if r = 1 then [("c", JVal.arr [JVal.str "a", JVal.str "b"])] else []
    next := 2 }

/-- Concrete reference-level dashboard state pointing at `sampleHeap`'s top. -/
def sampleStateR : DashStateR :=
  { filtersRef := 0, filterRef := none, refresh := none }

/-- Looking a key up right after setting it yields the value just set. -/
theorem alook_aset_self {α β : Type} [DecidableEq α] (l : List (α × β)) (k : α) (v : β) :
    alook (aset l k v) k = some v := by
  induction l with
  | nil => simp [aset, alook]
  | cons p rest ih =>
    by_cases h : p.1 = k
    · simp [aset, h, alook]
    · simp [aset, h, alook, ih]

/-- Looking a key up right after deleting it yields nothing. -/
theorem alook_aerase_self {α β : Type} [DecidableEq α] (l : List (α × β)) (k : α) :
    alook (aerase l k) k = none := by
  induction l with
  | nil => simp [aerase, alook]
  | cons p rest ih =>
    by_cases h : p.1 = k
    · simp [aerase, h, ih]
    · simp [aerase, h, alook, ih]

/-- Setting a key to the value it already holds leaves the list unchanged. -/
theorem aset_self {α β : Type} [DecidableEq α] (l : List (α × β)) (k : α) (v : β)
    (h : alook l k = some v) : aset l k v = l := by
  induction l with
  | nil => simp [alook] at h
  | cons p rest ih =>
    obtain ⟨a, b⟩ := p
    by_cases hp : a = k
    · subst hp
      simp [alook] at h
      simp [aset, h]
    · simp [alook, hp] at h
      simp [aset, hp, ih h]

/-- Lookup commutes with mapping a function over the values. -/
theorem alook_map {α β γ : Type} [DecidableEq α] (g : β → γ) (l : List (α × β)) (k : α) :
    alook (l.map (fun e => (e.1, g e.2))) k = (alook l k).map g := by
  induction l with
  | nil => simp [alook]
  | cons p rest ih =>
    by_cases h : p.1 = k
    · simp [alook, h]
    · simp [alook, h, ih]

/-- A value found by lookup occurs among the list's values. -/
theorem alook_mem_snd {α β : Type} [DecidableEq α] (l : List (α × β)) (k : α) (v : β)
    (h : alook l k = some v) : v ∈ l.map Prod.snd := by
  induction l with
  | nil => simp [alook] at h
  | cons p rest ih =>
    by_cases hp : p.1 = k
    · simp [alook, hp] at h
      simp [h]
    · simp [alook, hp] at h
      simp [ih h]

/-- Filtering on the key commutes with mapping a function over the values. -/
theorem map_filter_key {β γ : Type} (g : β → γ) (l : List (Nat × β)) (k : Nat) :
    (l.filter (fun e => !(e.1 == k))).map (fun e => (e.1, g e.2))
      = (l.map (fun e => (e.1, g e.2))).filter (fun e => !(e.1 == k)) := by
  induction l with
  | nil => simp
  | cons p rest ih =>
    by_cases h : p.1 = k
    · simp [List.filter_cons, h, ih]
    · simp [List.filter_cons, h, ih]

/-- A value is not `null` exactly when `isNullJ` reports false. -/
theorem isNullJ_eq_false_iff (v : JVal) : isNullJ v = false ↔ v ≠ JVal.null := by
  cases v <;> simp [isNullJ]

/-- A value is not `undefined` exactly when `isUndefJ` reports false. -/
theorem isUndefJ_eq_false_iff (v : JVal) : isUndefJ v = false ↔ v ≠ JVal.undef := by
  cases v <;> simp [isUndefJ]

/-- Mutating through the inner reference found for `sliceId` is observed, after
dereferencing, as updating exactly that slice's entry — provided the top
object's inner references do not alias each other. -/
theorem derefTop_update (top : List (Nat × Nat)) (inners : Nat → List (String × JVal))
    (sliceId ir : Nat) (newInner : List (String × JVal))
    (hir : alook top sliceId = some ir)
    (hnd : (top.map Prod.snd).Nodup) :
    top.map (fun e => (e.1, updFn inners ir newInner e.2))
      = aset (top.map (fun e => (e.1, inners e.2))) sliceId newInner := by
  induction top with
  | nil => simp [alook] at hir
  | cons p rest ih =>
    obtain ⟨a, r⟩ := p
    rw [List.map_cons] at hnd
    have hnd' := List.nodup_cons.mp hnd
    by_cases ha : a = sliceId
    · subst ha
      have hr : r = ir := by simpa [alook] using hir
      subst hr
      have htail : rest.map (fun e => (e.1, updFn inners r newInner e.2))
          = rest.map (fun e => (e.1, inners e.2)) := by
        apply List.map_congr_left
        intro e he
        have hmem : e.2 ∈ List.map Prod.snd rest := List.mem_map_of_mem Prod.snd he
        have hne : e.2 ≠ r := by
          intro hh
          rw [hh] at hmem
          exact hnd'.1 hmem
        simp [updFn, hne]
      rw [List.map_cons, List.map_cons, htail]
      show (a, updFn inners r newInner r) :: _
          = aset ((a, inners r) :: rest.map (fun e => (e.1, inners e.2))) a newInner
      simp [updFn, aset]
    · have hir' : alook rest sliceId = some ir := by simpa [alook, ha] using hir
      have hrne : r ≠ ir := by
        intro hh
        have hmem := alook_mem_snd rest sliceId ir hir'
        rw [← hh] at hmem
        exact hnd'.1 hmem
      rw [List.map_cons, List.map_cons]
      have hhead : updFn inners ir newInner r = inners r := by simp [updFn, hrne]
      rw [hhead]
      show (a, inners r) :: _ = aset ((a, inners r) :: rest.map (fun e => (e.1, inners e.2))) sliceId newInner
      rw [aset, if_neg ha, ih hir' hnd'.2]

/-- Helper: `getAsPromise` on a key with no memoized promise and a truthy
stored item returns a promise resolving to that item. -/
theorem getAsPromise_fresh (r : Registry) (k : String) (v : JVal)
    (hp : alook r.promises k = none) (hi : alook r.items k = some v)
    (hv : truthy v = true) :
    (r.getAsPromise k).1 = JProm.resolved v := by
  simp [Registry.getAsPromise, hp, Registry.get, hi, hv]

/-- Helper: `getAsPromise` on a key with no memoized promise whose `get` comes
back `null` returns the rejected promise naming the key. -/
theorem getAsPromise_miss (r : Registry) (k : String)
    (hp : alook r.promises k = none) (hg : r.get k = JVal.null) :
    (r.getAsPromise k).1
      = JProm.rejected ("Item with key \"" ++ k ++ "\" is not registered.") := by
  simp only [Registry.getAsPromise, hp]
  simp [hg, truthy]

/-- C3 counterexample: registering the falsy value `0` under a key and reading
it back yields `null`, not the registered value, and `getAsPromise` yields a
rejected promise rather than one resolving to `0` — refuting the claim that
`get` returns exactly `v` for every registered value `v` with no restriction. -/
theorem register_get_falsy_cex :
    Registry.get ((Registry.new "").register "k" (JVal.num 0)) "k" = JVal.null ∧
    JVal.null ≠ JVal.num 0 ∧
    (((Registry.new "").register "k" (JVal.num 0)).getAsPromise "k").1
      = JProm.rejected "Item with key \"k\" is not registered." :=
  ⟨rfl, fun h => JVal.noConfusion h, rfl⟩

/-- C3 (amended): for every key `k` and every truthy value `v`, immediately
after `register k v` the call `get k` returns exactly `v` and `getAsPromise k`
returns a promise resolving to `v`; for falsy `v`, `get` returns `null` and
`getAsPromise` a rejected promise instead. -/
theorem register_get_truthy (r : Registry) (k : String) (v : JVal)
    (hv : truthy v = true) :
    (r.register k v).get k = v ∧
    ((r.register k v).getAsPromise k).1 = JProm.resolved v := by
  have hi : alook (r.register k v).items k = some v := alook_aset_self r.items k v
  have hp : alook (r.register k v).promises k = none := alook_aerase_self r.promises k
  constructor
  · simp [Registry.get, hi, hv]
  · simp [Registry.getAsPromise, hp, Registry.get, hi, hv]

/-- C3 witness: the amended statement evaluated after registering the truthy
string "red". -/
theorem register_get_truthy_witness :
    ((Registry.new "color").register "k" (JVal.str "red")).get "k" = JVal.str "red" ∧
    (((Registry.new "color").register "k" (JVal.str "red")).getAsPromise "k").1
      = JProm.resolved (JVal.str "red") :=
  register_get_truthy (Registry.new "color") "k" (JVal.str "red") rfl

/-- C5 counterexample: after `register "k" 1`, `getAsPromise "k"` (memoizing a
resolved promise), and re-registration with the falsy value `0`, the next
`getAsPromise "k"` returns a rejected promise, not one resolving to the new
value — refuting the claim for arbitrary values `v2`. -/
theorem reregister_falsy_cex :
    (((((Registry.new "").register "k" (JVal.num 1)).getAsPromise "k").2.register "k"
        (JVal.num 0)).getAsPromise "k").1
      = JProm.rejected "Item with key \"k\" is not registered." ∧
    (((((Registry.new "").register "k" (JVal.num 1)).getAsPromise "k").2.register "k"
        (JVal.num 0)).getAsPromise "k").1
      ≠ JProm.resolved (JVal.num 0) :=
  ⟨rfl, fun h => JProm.noConfusion h⟩

/-- C5 (amended): for every key `k`, every value `v`, and every truthy value
`v2`, after `register k v`, `getAsPromise k`, and `register k v2`, the
memoized promise for `k` is cleared, and the next `getAsPromise k` returns a
new promise resolving to `v2`. -/
theorem reregister_clears_promise (r : Registry) (k : String) (v v2 : JVal)
    (h2 : truthy v2 = true) :
    alook ((((r.register k v).getAsPromise k).2).register k v2).promises k = none ∧
    (((((r.register k v).getAsPromise k).2).register k v2).getAsPromise k).1
      = JProm.resolved v2 := by
  have hp : alook ((((r.register k v).getAsPromise k).2).register k v2).promises k = none :=
    alook_aerase_self (((r.register k v).getAsPromise k).2).promises k
  have hi : alook ((((r.register k v).getAsPromise k).2).register k v2).items k = some v2 :=
    alook_aset_self (((r.register k v).getAsPromise k).2).items k v2
  exact ⟨hp, getAsPromise_fresh _ k v2 hp hi h2⟩

/-- C5 witness: the amended statement evaluated with `v = 1`, `v2 = 2`. -/
theorem reregister_clears_promise_witness :
    alook (((((Registry.new "x").register "k" (JVal.num 1)).getAsPromise "k").2).register "k"
        (JVal.num 2)).promises "k" = none ∧
    ((((((Registry.new "x").register "k" (JVal.num 1)).getAsPromise "k").2).register "k"
        (JVal.num 2)).getAsPromise "k").1
      = JProm.resolved (JVal.num 2) :=
  reregister_clears_promise (Registry.new "x") "k" (JVal.num 1) (JVal.num 2) rfl

/-- C6: for every key `k` never registered (no item and no memoized promise),
`get` returns `null`, `has` returns `false`, and `getAsPromise` returns a
rejected promise whose message names the key; all three are ordinary returns
of total functions, never synchronous throws. -/
theorem registry_unregistered (r : Registry) (k : String)
    (hi : alook r.items k = none) (hp : alook r.promises k = none) :
    r.get k = JVal.null ∧ r.has k = false ∧
    (r.getAsPromise k).1
      = JProm.rejected ("Item with key \"" ++ k ++ "\" is not registered.") := by
  refine ⟨?_, ?_, ?_⟩ <;>
    simp [Registry.get, Registry.has, Registry.getAsPromise, hi, hp, truthy, isNullJ, isUndefJ]

/-- C6 witness: the statement evaluated on a fresh registry and the key
"missing". -/
theorem registry_unregistered_witness :
    (Registry.new "reg").get "missing" = JVal.null ∧
    (Registry.new "reg").has "missing" = false ∧
    ((Registry.new "reg").getAsPromise "missing").1
      = JProm.rejected "Item with key \"missing\" is not registered." :=
  registry_unregistered (Registry.new "reg") "missing" rfl rfl

/-- C9: registering a falsy value other than `null`/`undefined` (such as `0`,
`''`, or `false`) makes `has` report `true` while `get` returns `null` and
`getAsPromise` returns a rejected promise; moreover, in any registry, `has`
reporting `true` while `get` returns `null` happens exactly on keys holding a
falsy non-`null`, non-`undefined` value. -/
theorem registered_falsy_spec (r : Registry) (k : String) (v : JVal)
    (hv : truthy v = false) (hn : v ≠ JVal.null) (hu : v ≠ JVal.undef) :
    ((r.register k v).has k = true ∧ (r.register k v).get k = JVal.null ∧
     ((r.register k v).getAsPromise k).1
       = JProm.rejected ("Item with key \"" ++ k ++ "\" is not registered.")) ∧
    (∀ (r2 : Registry) (k2 : String),
      (r2.has k2 = true ∧ r2.get k2 = JVal.null) ↔
        ∃ w, alook r2.items k2 = some w ∧ truthy w = false ∧
          w ≠ JVal.null ∧ w ≠ JVal.undef) := by
  have hi : alook (r.register k v).items k = some v := alook_aset_self r.items k v
  have hp : alook (r.register k v).promises k = none := alook_aerase_self r.promises k
  have hg : (r.register k v).get k = JVal.null := by simp [Registry.get, hi, hv]
  constructor
  · refine ⟨?_, hg, getAsPromise_miss _ k hp hg⟩
    simp [Registry.has, hi, (isNullJ_eq_false_iff v).mpr hn, (isUndefJ_eq_false_iff v).mpr hu]
  · intro r2 k2
    cases h : alook r2.items k2 with
    | none =>
      simp [Registry.has, Registry.get, h, isUndefJ]
    | some w =>
      constructor
      · rintro ⟨hh, hg⟩
        by_cases ht : truthy w
        · rw [Registry.get] at hg
          simp [h, ht] at hg
          rw [Registry.has] at hh
          simp [h, hg, isNullJ] at hh
        · refine ⟨w, rfl, Bool.eq_false_iff.mpr ht, ?_, ?_⟩
          · rw [Registry.has] at hh
            simp [h] at hh
            exact (isNullJ_eq_false_iff w).mp (Bool.eq_false_iff.mpr (fun hb => by simp [hb] at hh))
          · rw [Registry.has] at hh
            simp [h] at hh
            exact (isUndefJ_eq_false_iff w).mp (Bool.eq_false_iff.mpr (fun hb => by simp [hb] at hh))
      · rintro ⟨w2, hw2, hf, hn2, hu2⟩
        have hww : w2 = w := by simpa using hw2.symm
        subst hww
        constructor
        · simp [Registry.has, h, (isNullJ_eq_false_iff w2).mpr hn2,
            (isUndefJ_eq_false_iff w2).mpr hu2]
        · simp [Registry.get, h, hf]

/-- C9 witness: the statement evaluated after registering the empty string
(falsy, neither `null` nor `undefined`). -/
theorem registered_falsy_witness :
    ((Registry.new "").register "k" (JVal.str "")).has "k" = true ∧
    ((Registry.new "").register "k" (JVal.str "")).get "k" = JVal.null ∧
    (((Registry.new "").register "k" (JVal.str "")).getAsPromise "k").1
      = JProm.rejected "Item with key \"k\" is not registered." :=
  (registered_falsy_spec (Registry.new "") "k" (JVal.str "") rfl
    (fun h => JVal.noConfusion h) (fun h => JVal.noConfusion h)).1

/-- C4: for every dashboard state and every action whose `type` string is not
one of the nine recognized discriminants, the reducer returns its input state
itself; the fallthrough applies to every unrecognized type string without
exception. -/
theorem dashboard_unknown_identity (s : DashState) (a : DashAction)
    (h : actionTypeStr a ∉ handledActionTypes) : dashboard s a = s := by
  cases a <;> first
    | rfl
    | simp [actionTypeStr, handledActionTypes] at h

/-- C4 witness: the reducer at a concrete state and an action with the
unrecognized type "SOME_OTHER_ACTION". -/
theorem dashboard_unknown_identity_witness :
    dashboard (sampleState []) (.unknown "SOME_OTHER_ACTION") = sampleState [] :=
  dashboard_unknown_identity (sampleState []) (.unknown "SOME_OTHER_ACTION") (by decide)

/-- C8: when each sub-reducer of the composite store returns its input slice
unchanged, the combined reducer returns the input root state itself, enabling
cheap change detection downstream. -/
theorem combineReducers_identity {C D : Type} [DecidableEq C] [DecidableEq D]
    (chartsReducer : C → DashAction → C) (dashboardReducer : D → DashAction → D)
    (s : RootState C D) (a : DashAction)
    (h1 : chartsReducer s.charts a = s.charts)
    (h2 : dashboardReducer s.dashboard a = s.dashboard) :
    combineReducers chartsReducer dashboardReducer s a = s := by
  simp [combineReducers, h1, h2]

/-- C8 witness: the composite of two identity-preserving sub-reducers at a
concrete root state and an unrecognized action. -/
theorem combineReducers_identity_witness :
    combineReducers (fun (c : Nat) (_ : DashAction) => c) (fun (d : Nat) (_ : DashAction) => d)
      { charts := 1, dashboard := 2 } (.unknown "NOPE")
      = { charts := 1, dashboard := 2 } :=
  combineReducers_identity (fun c _ => c) (fun d _ => d)
    { charts := 1, dashboard := 2 } (.unknown "NOPE") rfl rfl

/-- C2 counterexample: with a non-empty, unparsable request override ("bad")
and a valid metadata default ("ok", parsing to a filter on slice 1),
`getInitialState` produces empty filters — not the parsed metadata default as
the claim states: the fallback to metadata happens only when the override is
absent or empty, not when it fails to parse. -/
theorem getInitialState_preselect_cex :
    (getInitialState sampleParse idFD (some "bad") sampleBootstrap).filters = [] ∧
    (getInitialState sampleParse idFD (some "bad") sampleBootstrap).filters
      ≠ [(1, JVal.obj [("c", JVal.arr [JVal.str "a"])])] :=
  ⟨rfl, fun h => List.noConfusion h⟩

/-- C2 (amended): `getInitialState` never raises (the parse is wrapped so
every outcome is an ordinary return), and its filters obey: a non-empty
request override that fails to parse yields empty filters regardless of the
metadata default; a falsy (absent or empty) override with a metadata default
that parses yields exactly the parsed default; a falsy override whose metadata
default is absent or fails to parse yields empty filters. -/
theorem getInitialState_filters_fallback
    (parse : String → Option (List (Nat × JVal))) (applyFD : FormData → FormData)
    (preselect : Option String) (bd : BootstrapData) :
    (∀ s, preselect = some s → (s == "") = false → parse s = none →
      (getInitialState parse applyFD preselect bd).filters = []) ∧
    (∀ d fd, jsTruthyStr preselect = false →
      bd.dashboard_data.metadata.default_filters = some d → parse d = some fd →
      (getInitialState parse applyFD preselect bd).filters = fd) ∧
    (∀ d, jsTruthyStr preselect = false →
      bd.dashboard_data.metadata.default_filters = some d → parse d = none →
      (getInitialState parse applyFD preselect bd).filters = []) ∧
    (jsTruthyStr preselect = false →
      bd.dashboard_data.metadata.default_filters = none →
      (getInitialState parse applyFD preselect bd).filters = []) := by
  refine ⟨?_, ?_, ?_, ?_⟩
  · intro s hs hne hparse
    subst hs
    simp [getInitialState, initialFiltersOf, jsTruthyStr, hne, hparse]
  · intro d fd hfalsy hd hparse
    simp [getInitialState, initialFiltersOf, hfalsy, hd, hparse]
  · intro d hfalsy hd hparse
    simp [getInitialState, initialFiltersOf, hfalsy, hd, hparse]
  · intro hfalsy hd
    simp [getInitialState, initialFiltersOf, hfalsy, hd]

/-- C2 witness: the amended statement evaluated with an absent override and
the parsable metadata default "ok". -/
theorem getInitialState_filters_fallback_witness :
    (getInitialState sampleParse idFD none sampleBootstrap).filters
      = [(1, JVal.obj [("c", JVal.arr [JVal.str "a"])])] :=
  (getInitialState_filters_fallback sampleParse idFD none sampleBootstrap).2.1
    "ok" [(1, JVal.obj [("c", JVal.arr [JVal.str "a"])])] rfl rfl rfl

/-- C7: in the initial state, the layout entry for the entity at zero-based
index `i` is derived from the default position column `(i*4 + 1) mod 12`, row
`floor(i/3) * 4`, width 4, height 4 when `position_json` has no entry for that
slice (the emitted grid entry has `x = col - 1`, `y = row`, `w = size_x`,
`minW = 2`, `h = size_y`); when an explicit position is present for the slice,
it is used instead of the default. -/
theorem getInitialState_layout
    (parse : String → Option (List (Nat × JVal))) (applyFD : FormData → FormData)
    (preselect : Option String) (bd : BootstrapData) (i : Nat) (sl : Slice)
    (hsl : bd.dashboard_data.slices[i]? = some sl) :
    (alook (posDictOf bd.dashboard_data.position_json) sl.slice_id = none →
      (getInitialState parse applyFD preselect bd).dashboard.layout[i]?
        = some { i := toString sl.slice_id, x := ((i : Int) * 4 + 1) % 12 - 1,
                 y := ((i : Int) / 3) * 4, w := 4, minW := 2, h := 4 }) ∧
    (∀ p, alook (posDictOf bd.dashboard_data.position_json) sl.slice_id = some p →
      (getInitialState parse applyFD preselect bd).dashboard.layout[i]?
        = some { i := toString sl.slice_id, x := p.col - 1, y := p.row,
                 w := p.size_x, minW := 2, h := p.size_y }) := by
  constructor
  · intro hnone
    simp [getInitialState, layoutOf, List.getElem?_map, List.getElem?_enum, hsl, hnone, defaultPos]
  · intro p hp
    simp [getInitialState, layoutOf, List.getElem?_map, List.getElem?_enum, hsl, hp]

/-- C7 witness: with five slices and one explicit position (slice 100), the
entity at index 4 gets the default `col = (4*4+1) mod 12 = 5`, `row =
floor(4/3)*4 = 4`, width 4, height 4 (grid entry `x = 4`), while the entity at
index 0 uses its explicit position. -/
theorem getInitialState_layout_witness :
    (getInitialState sampleParse idFD none posBootstrap).dashboard.layout[4]?
      = some { i := "104", x := 4, y := 4, w := 4, minW := 2, h := 4 } ∧
    (getInitialState sampleParse idFD none posBootstrap).dashboard.layout[0]?
      = some { i := "100", x := 6, y := 2, w := 6, minW := 2, h := 3 } := by
  constructor
  · have h := (getInitialState_layout sampleParse idFD none posBootstrap 4
      (mkSlice 104) rfl).1 rfl
    simpa using h
  · have h := (getInitialState_layout sampleParse idFD none posBootstrap 0
      (mkSlice 100) rfl).2 { col := 7, row := 2, size_x := 6, size_y := 3 } rfl
    simpa using h

/-- C1 counterexample: on a state whose filters map slice 10 to `{c: ["a"]}`,
an ADD_FILTER for slice 10, column "c", values `["b"]` with `merge = true`
produces a filter value for slice 10 that is the bare array `["a","b"]` — the
per-column mapping is replaced by the merged array rather than mapping the
column to the concatenation, so the slice's value no longer maps "c" at all. -/
theorem addFilter_merge_cex :
    alook (dashboard (sampleState [(10, JVal.obj [("c", JVal.arr [JVal.str "a"])])])
        (.addFilter 10 "c" [JVal.str "b"] true true)).filters 10
      = some (JVal.arr [JVal.str "a", JVal.str "b"]) ∧
    jsGetKey ((alook (dashboard (sampleState [(10, JVal.obj [("c", JVal.arr [JVal.str "a"])])])
        (.addFilter 10 "c" [JVal.str "b"] true true)).filters 10).getD JVal.undef) "c"
      ≠ JVal.arr [JVal.str "a", JVal.str "b"] :=
  ⟨rfl, fun h => JVal.noConfusion h⟩

/-- C1 (amended): for a slice present in the state and a column among the
fixed temporal keys or the slice's group-by columns, when the slice's existing
filter value is absent or a column map: if `merge` is false or the column has
no value yet, the slice's value becomes the column map with `col` bound to the
action's `vals` (other columns preserved); else if the column's existing value
is an array, the slice's whole value is replaced by the bare concatenation of
that array with `vals` (dropping the per-column mapping); else the slice's
whole value is replaced by the existing scalar itself — the first element of
the concatenation of the wrapped scalar with `vals` — or the empty string when
that scalar is falsy. -/
theorem addFilter_spec (s : DashState) (sliceId : Nat) (col : String)
    (vals : List JVal) (mrg rfsh : Bool) (sl : Slice)
    (hfind : s.dashboard.slices.find? (fun x => x.slice_id == sliceId) = some sl)
    (hcol : (filterKeys.contains col || sl.formData.groupby.contains col) = true) :
    (alook s.filters sliceId = none →
      alook (dashboard s (.addFilter sliceId col vals mrg rfsh)).filters sliceId
        = some (JVal.obj [(col, JVal.arr vals)])) ∧
    (∀ m, alook s.filters sliceId = some (JVal.obj m) →
      ((mrg = false ∨ jsHasKey (JVal.obj m) col = false) →
        alook (dashboard s (.addFilter sliceId col vals mrg rfsh)).filters sliceId
          = some (jsSetKey (JVal.obj m) col (JVal.arr vals))) ∧
      (∀ xs, mrg = true → jsGetKey (JVal.obj m) col = JVal.arr xs →
        alook (dashboard s (.addFilter sliceId col vals mrg rfsh)).filters sliceId
          = some (JVal.arr (xs ++ vals))) ∧
      (mrg = true → jsHasKey (JVal.obj m) col = true →
          isArrJ (jsGetKey (JVal.obj m) col) = false →
        alook (dashboard s (.addFilter sliceId col vals mrg rfsh)).filters sliceId
          = some (jsOr (jsGetKey (JVal.obj m) col) (JVal.str "")))) := by
  have hcol' : col ∈ filterKeys ∨ col ∈ sl.formData.groupby := by simpa using hcol
  refine ⟨?_, ?_⟩
  · intro hnone
    simp [dashboard, hfind, hcol', hnone, alook_aset_self, jsSetKey, jsHasKey, alook, aset, truthy]
  · intro m hm
    refine ⟨?_, ?_, ?_⟩
    · intro hcond
      rcases hcond with hc | hc
      · subst hc
        simp [dashboard, hfind, hcol', hm, alook_aset_self]
      · simp [dashboard, hfind, hcol', hm, hc, alook_aset_self, truthy]
    · intro xs hmrg hg
      subst hmrg
      have hk : jsHasKey (JVal.obj m) col = true := by
        cases hmc : alook m col with
        | none => simp [jsGetKey, hmc] at hg
        | some w => simp [jsHasKey, hmc]
      simp [dashboard, hfind, hcol', hm, hk, hg, alook_aset_self, truthy, d3merge, jsArrElems,
        isArrJ]
    · intro hmrg hk hna
      subst hmrg
      simp [dashboard, hfind, hcol', hm, hk, hna, alook_aset_self, truthy, d3merge]

/-- C1 witness: the amended statement's overwrite case evaluated on a state
with no existing filter for slice 10. -/
theorem addFilter_spec_witness :
    alook (dashboard (sampleState []) (.addFilter 10 "c" [JVal.str "b"] false true)).filters 10
      = some (JVal.obj [("c", JVal.arr [JVal.str "b"])]) :=
  (addFilter_spec (sampleState []) 10 "c" [JVal.str "b"] false true sampleSlice
    rfl rfl).1 rfl

/-- C10: for every heap and state, CLEAR_FILTER and REMOVE_FILTER leave the
state's `filters` field bound to the same reference (it is never reassigned),
store the modified filter mapping under the separate field `filter` (a fresh
object whose dereferenced value is, for CLEAR_FILTER, the mapping without the
slice's entry, and for REMOVE_FILTER, the mapping with the removed values
filtered out of the slice's column), and set `refresh` to `true`.  The
`Nodup` hypothesis says the top object's inner references do not alias each
other, as holds for any filters object built by the reducer. -/
theorem clear_remove_filter_frame (h : FHeap) (s : DashStateR) (sliceId : Nat)
    (col : String) (vals : List JVal)
    (hnd : ((h.tops s.filtersRef).map Prod.snd).Nodup) :
    ((clearFilterR h s sliceId).2.filtersRef = s.filtersRef ∧
     (clearFilterR h s sliceId).2.refresh = some true ∧
     (clearFilterR h s sliceId).2.filterRef = some h.next ∧
     derefTop (clearFilterR h s sliceId).1 h.next
       = (derefTop h s.filtersRef).filter (fun e => !(e.1 == sliceId))) ∧
    ((removeFilterR h s sliceId col vals).2.filtersRef = s.filtersRef ∧
     (removeFilterR h s sliceId col vals).2.refresh = some true ∧
     (removeFilterR h s sliceId col vals).2.filterRef = some h.next ∧
     derefTop (removeFilterR h s sliceId col vals).1 h.next
       = removeFilterVal (derefTop h s.filtersRef) sliceId col vals) := by
  refine ⟨⟨rfl, rfl, rfl, ?_⟩, rfl, rfl, rfl, ?_⟩
  · have hg : derefTop (clearFilterR h s sliceId).1 h.next
        = ((h.tops s.filtersRef).filter (fun e => !(e.1 == sliceId))).map
            (fun e => (e.1, h.inners e.2)) := by
      simp [clearFilterR, derefTop, updFn]
    rw [hg, map_filter_key h.inners (h.tops s.filtersRef) sliceId]
    rfl
  · cases ha : alook (h.tops s.filtersRef) sliceId with
    | none =>
      simp [removeFilterR, ha, derefTop, updFn, removeFilterVal, alook_map]
    | some ir =>
      have hfs : alook (derefTop h s.filtersRef) sliceId = some (h.inners ir) := by
        simp [derefTop, alook_map, ha]
      cases hc : alook (h.inners ir) col with
      | none =>
        have hfs' : alook ((h.tops s.filtersRef).map (fun e => (e.1, h.inners e.2))) sliceId
            = some (h.inners ir) := by
          simp [alook_map, ha]
        have hrv : removeVals (h.inners ir) col vals = h.inners ir := by
          simp [removeVals, hc]
        simp [removeFilterR, ha, hc, derefTop, updFn, removeFilterVal, alook_map, hrv]
        exact (aset_self _ sliceId (h.inners ir) hfs').symm
      | some cur =>
        have hrv : removeVals (h.inners ir) col vals
            = aset (h.inners ir) col (JVal.arr ((jsArrElems cur).filter
                (fun v => !(vals.any (fun w => jsStrictEq w v))))) := by
          simp [removeVals, hc]
        have hrfv : removeFilterVal (derefTop h s.filtersRef) sliceId col vals
            = aset (derefTop h s.filtersRef) sliceId (removeVals (h.inners ir) col vals) := by
          simp [removeFilterVal, hfs]
        have hg : derefTop (removeFilterR h s sliceId col vals).1 h.next
            = (h.tops s.filtersRef).map (fun e => (e.1,
                updFn h.inners ir (aset (h.inners ir) col (JVal.arr ((jsArrElems cur).filter
                  (fun v => !(vals.any (fun w => jsStrictEq w v)))))) e.2)) := by
          simp [removeFilterR, ha, hc, derefTop, updFn]
        rw [hg, derefTop_update _ _ _ _ _ ha hnd, hrfv, hrv]
        rfl

/-- C10 witness: the statement evaluated on a concrete heap where slice 10's
filter holds `{c: ["a","b"]}` and the action removes value "a" from column
"c": the `filters` reference is untouched and the fresh `filter` object
dereferences to `{10: {c: ["b"]}}`. -/
theorem clear_remove_filter_frame_witness :
    (removeFilterR sampleHeap sampleStateR 10 "c" [JVal.str "a"]).2.filtersRef = 0 ∧
    derefTop (removeFilterR sampleHeap sampleStateR 10 "c" [JVal.str "a"]).1 2
      = [(10, [("c", JVal.arr [JVal.str "b"])])] := by
  have hfull := clear_remove_filter_frame sampleHeap sampleStateR 10 "c" [JVal.str "a"]
    (by decide)
  exact ⟨hfull.2.1, (hfull.2.2.2.2).trans rfl⟩
